import Mathlib

/-!
Verification of the HealthCare "Pebblo MCP" policy-engine core.

The Python source under backend/app is shallowly embedded:
* Python strings are embedded as lists of characters (Str below), so that
  str.startswith corresponds to List.isPrefixOf and the substring test
  to an explicit scan (containsSeg).
* Python dicts/lists of the nested patient record become the mutual
  inductive Val / Fields / Elems.
* Wall-clock values (datetime.now) are passed as explicit arguments.
* The SHA-256 digest used only to derive an audit session id is an
  uninterpreted function parameter: no statement here depends on it.
-/

/-- Python strings, embedded as their character sequences. -/
abbrev Str := List Char

/-- Python str.lower, character by character. -/
def lowerStr (s : Str) : Str := s.map Char.toLower

/-- Python substring test (needle in haystack) on character sequences:
true iff p occurs as a contiguous segment of t. -/
def containsSeg (p : Str) : Str → Bool
  | [] => p.isPrefixOf []
  | c :: t => p.isPrefixOf (c :: t) || containsSeg p t

/-- Python str.find: index of the first occurrence of p in t, or -1. -/
def findSeg (p : Str) : Str → Int
  | [] => if p.isPrefixOf ([] : Str) then 0 else -1
  | c :: t =>
    if p.isPrefixOf (c :: t) then 0
    else
      let r := findSeg p t
      if r < 0 then -1 else r + 1

/-- Result dictionary of SecurityUtils.detect_injection_patterns
(security.py lines 19-25).  The timestamp field of the Python dict is a
wall-clock diagnostic and is not modelled. -/
structure DetectResult where
  detected : Bool
  pattern : Str
  location : Int
  original_text : Str
  deriving Repr, DecidableEq

/-- The for-loop of detect_injection_patterns (security.py lines 17-25):
return a result for the first pattern whose lowercase form occurs in the
lowered text. -/
def detectLoop (text : Str) (textLower : Str) : List Str → Option DetectResult
  | [] => none
  | p :: ps =>
    if containsSeg (lowerStr p) textLower then
      some { detected := true, pattern := p,
             location := findSeg (lowerStr p) textLower,
             original_text := text }
    else detectLoop text textLower ps

/-- SecurityUtils.detect_injection_patterns (security.py lines 10-27):
None when the text or the pattern list is empty, else the first match. -/
def detect_injection_patterns (text : Str) (patterns : List Str) : Option DetectResult :=
  if text = [] ∨ patterns = [] then none
  else detectLoop text (lowerStr text) patterns

/-- The literal replacement marker used by sanitize_text. -/
def contentFilteredMarker : Str := "[CONTENT_FILTERED]".data

/-- re.sub with an empty (escaped) pattern: the replacement is inserted
at every position, around every character. -/
def subEmpty (marker : Str) : Str → Str
  | [] => marker
  | c :: t => marker ++ c :: subEmpty marker t

/-- Case-insensitive literal match at the start of the text, as produced
by re.escape(pattern) with re.IGNORECASE. -/
def matchCI (pat text : Str) : Bool :=
  (lowerStr pat).isPrefixOf (lowerStr text)

/-- Scanning loop of one re.sub(re.escape(pat), marker, text, IGNORECASE)
for a non-empty pat: leftmost, non-overlapping replacement.  The fuel
argument only encodes termination (each replacement consumes at least one
character); subNE supplies fuel = length of the text, which is always
sufficient, so the fuel-exhausted branch is unreachable. -/
def subAux (pat marker : Str) : Nat → Str → Str
  | _, [] => []
  | 0, t => t
  | f + 1, c :: t =>
    if matchCI pat (c :: t) then
      marker ++ subAux pat marker f ((c :: t).drop pat.length)
    else c :: subAux pat marker f t

/-- One re.sub of a non-empty literal pattern over the whole text. -/
def subNE (pat marker text : Str) : Str :=
  subAux pat marker text.length text

/-- One re.sub(re.escape(pat), marker, text, flags=IGNORECASE)
(security.py line 39), covering the empty-pattern edge case. -/
def subCI (pat marker text : Str) : Str :=
  if pat = [] then subEmpty marker text else subNE pat marker text

/-- SecurityUtils.sanitize_text (security.py lines 29-41): empty text is
returned as is; otherwise every pattern is substituted in turn, each
re.sub running over the result of the previous one. -/
def sanitize_text (text : Str) (patterns : List Str) : Str :=
  if text = [] then text
  else patterns.foldl (fun acc p => subCI p contentFilteredMarker acc) text

example : sanitize_text "content".data ["content".data] = contentFilteredMarker := by decide

mutual
/-- A Python value inside a patient record dict: a scalar (all patient
scalars are strings), a nested dict, or a list. -/
inductive Val where
  | str : Str → Val
  | dict : Fields → Val
  | arr : Elems → Val
  deriving DecidableEq

/-- The entries of a Python dict, in insertion order. -/
inductive Fields where
  | nil : Fields
  | cons : Str → Val → Fields → Fields
  deriving DecidableEq

/-- The elements of a Python list. -/
inductive Elems where
  | nil : Elems
  | cons : Val → Elems → Elems
  deriving DecidableEq
end

/-- The literal written over blocked fields. -/
def redactedMarker : Str := "[REDACTED]".data

/-- Path extension inside filter_recursive (pebblo_service.py line 158):
current_path = f"{path}.{key}" if path else key. -/
def joinPath (path key : Str) : Str :=
  if path = [] then key else path ++ '.' :: key

/-- The blocking test of _apply_field_filtering (pebblo_service.py lines
161-162): any blocked_field with current_path.startswith(blocked_field)
or blocked_field.startswith(current_path) — a raw, symmetric string
prefix test, with no dot-separation requirement. -/
def blockedHit (blocked : List Str) (cur : Str) : Bool :=
  blocked.any fun b => b.isPrefixOf cur || cur.isPrefixOf b

mutual
/-- The per-dict loop of filter_recursive (pebblo_service.py lines
156-169): each entry key gets the extended path; on a hit the value is
overwritten with the marker, otherwise the elif branches recurse. -/
def filterFields (blocked : List Str) (path : Str) : Fields → Fields
  | Fields.nil => Fields.nil
  | Fields.cons k v rest =>
    Fields.cons k
      (if blockedHit blocked (joinPath path k) then Val.str redactedMarker
       else filterBelow blocked (joinPath path k) v)
      (filterFields blocked path rest)

/-- The elif branches of the loop body (pebblo_service.py lines
164-169): the recursion applied to a value whose own path was not hit:
dicts are recursed into, and lists whose first element is a dict have
each dict element recursed into under the same path. -/
def filterBelow (blocked : List Str) (cur : Str) : Val → Val
  | Val.dict fs => Val.dict (filterFields blocked cur fs)
  | Val.arr es =>
    match es with
    | Elems.cons (Val.dict _) _ => Val.arr (filterElems blocked cur es)
    | _ => Val.arr es
  | v => v

/-- The inner for-loop over a list value (pebblo_service.py lines
167-169): dict items are recursed into, everything else is untouched. -/
def filterElems (blocked : List Str) (cur : Str) : Elems → Elems
  | Elems.nil => Elems.nil
  | Elems.cons (Val.dict fs) rest =>
    Elems.cons (Val.dict (filterFields blocked cur fs)) (filterElems blocked cur rest)
  | Elems.cons v rest => Elems.cons v (filterElems blocked cur rest)
end

/-- The full loop body for one entry at its extended path. -/
def filterEntry (blocked : List Str) (cur : Str) (v : Val) : Val :=
  if blockedHit blocked cur then Val.str redactedMarker
  else filterBelow blocked cur v

theorem filterFields_cons (blocked : List Str) (path k : Str) (v : Val) (rest : Fields) :
    filterFields blocked path (Fields.cons k v rest) =
    Fields.cons k (filterEntry blocked (joinPath path k) v)
      (filterFields blocked path rest) := rfl

/-- PebbloMCPService._apply_field_filtering (pebblo_service.py lines
151-172): runs filter_recursive from the empty path over (a shallow copy
of) the data.  The allowed_fields argument is accepted and ignored,
exactly as in the source. -/
def apply_field_filtering (data : Fields) (blocked : List Str)
    (allowed : List Str) : Fields :=
  let _ := allowed
  filterFields blocked [] data

example :
    apply_field_filtering (Fields.cons "ssn_history".data (Val.str "x".data) Fields.nil)
      ["ssn".data] [] =
    Fields.cons "ssn_history".data (Val.str redactedMarker) Fields.nil := rfl

example :
    apply_field_filtering
      (Fields.cons "medical_history".data
        (Val.dict (Fields.cons "allergies".data (Val.str "latex".data) Fields.nil))
        Fields.nil)
      ["medical_history.allergies".data] [] =
    Fields.cons "medical_history".data (Val.str redactedMarker) Fields.nil := rfl

example :
    detect_injection_patterns "please IGNORE ALL prior".data
      ["bypass security".data, "ignore all".data] =
    some { detected := true, pattern := "ignore all".data, location := 7,
           original_text := "please IGNORE ALL prior".data } := by decide

/-- One role's policy block (policy_service.py lines 36-49). -/
structure RolePolicy where
  role_name : Str
  allowed_fields : List Str
  blocked_fields : List Str
  data_sources : List Str
  max_patients_per_query : Nat
  deriving Repr, DecidableEq

/-- The loaded policy configuration: role_policies keyed by the role
string (UserRole.value), plus the injection pattern list. -/
structure Policies where
  role_policies : List (Str × RolePolicy)
  injection_patterns : List Str
  deriving Repr, DecidableEq

/-- PolicyService._get_default_policies (policy_service.py lines 32-55),
the hard-coded fallback used when policies.json cannot be read. -/
def default_policies : Policies :=
  { role_policies :=
      [ ("nursing_group".data,
         { role_name := "Nursing Group".data,
           allowed_fields := ["patient_id".data, "name".data, "room".data, "vitals".data,
                              "medical_history.allergies".data, "medical_history.medications".data],
           blocked_fields := ["ssn".data, "mrn".data, "phone".data, "address".data,
                              "insurance".data, "dob".data],
           data_sources := ["hospital_records".data],
           max_patients_per_query := 10 }),
        ("billing_department".data,
         { role_name := "Billing Department".data,
           allowed_fields := ["patient_id".data, "name".data, "room".data, "ssn".data,
                              "mrn".data, "dob".data, "insurance".data, "phone".data,
                              "address".data],
           blocked_fields := ["vitals".data, "medical_history".data],
           data_sources := ["hospital_records".data, "jira_tickets".data],
           max_patients_per_query := 50 }) ],
    injection_patterns :=
      ["ignore policies".data, "ignore all".data, "system override".data,
       "show all patient".data, "leak all patient".data, "output all".data,
       "bypass security".data] }

/-- Python dict .get on the role_policies mapping: first binding for the
key, None when absent. -/
def lookupRole (ps : List (Str × RolePolicy)) (role : Str) : Option RolePolicy :=
  match ps with
  | [] => none
  | (k, p) :: rest => if k = role then some p else lookupRole rest role

/-- PolicyService.get_role_policy (policy_service.py lines 57-67):
self.policies.get("role_policies", {}).get(role.value). -/
def get_role_policy (pol : Policies) (role : Str) : Option RolePolicy :=
  lookupRole pol.role_policies role

/-- PolicyService.get_allowed_fields (policy_service.py lines 69-72). -/
def get_allowed_fields (pol : Policies) (role : Str) : List Str :=
  match get_role_policy pol role with
  | some p => p.allowed_fields
  | none => []

/-- PolicyService.get_blocked_fields (policy_service.py lines 74-77). -/
def get_blocked_fields (pol : Policies) (role : Str) : List Str :=
  match get_role_policy pol role with
  | some p => p.blocked_fields
  | none => []

/-- PolicyService.get_allowed_data_sources (policy_service.py 79-82). -/
def get_allowed_data_sources (pol : Policies) (role : Str) : List Str :=
  match get_role_policy pol role with
  | some p => p.data_sources
  | none => []

/-- PolicyService.can_access_data_source (policy_service.py 84-87):
Python list membership of the data source string. -/
def can_access_data_source (pol : Policies) (role : Str) (data_source : Str) : Bool :=
  (get_allowed_data_sources pol role).contains data_source

/-- PolicyService.get_injection_patterns (policy_service.py 89-91). -/
def get_injection_patterns (pol : Policies) : List Str :=
  pol.injection_patterns

/-- PolicyService.is_field_allowed (policy_service.py lines 93-106):
exact membership, or a dot-separated ancestor/descendant relation with
some allowed field. -/
def is_field_allowed (pol : Policies) (role : Str) (field_path : Str) : Bool :=
  let allowed := get_allowed_fields pol role
  allowed.contains field_path ||
    allowed.any fun a =>
      (a ++ ['.']).isPrefixOf field_path || (field_path ++ ['.']).isPrefixOf a

/-- PolicyService.get_max_patients_per_query (policy_service.py lines
108-111): defaults to 1 when the role has no policy. -/
def get_max_patients_per_query (pol : Policies) (role : Str) : Nat :=
  match get_role_policy pol role with
  | some p => p.max_patients_per_query
  | none => 1

/-- The verdict dictionary built by validate_access_request
(policy_service.py lines 117-123). -/
structure ValidationResult where
  allowed : Bool
  blocked_fields : List Str
  allowed_fields : List Str
  violations : List Str
  policy_applied : Str
  deriving Repr, DecidableEq

/-- The violation string of policy_service.py line 128. -/
def sourceViolation (data_source : Str) : Str :=
  "Access denied to data source: ".data ++ data_source

/-- The violation string of policy_service.py line 134.  Patient counts
are non-negative, so they are embedded as naturals and rendered with the
decimal printer. -/
def countViolation (patient_count max_patients : Nat) : Str :=
  "Patient count ".data ++ (Nat.repr patient_count).data ++
    " exceeds limit ".data ++ (Nat.repr max_patients).data

/-- PolicyService.validate_access_request (policy_service.py lines
113-145): the data-source check and the quota check each flip allowed to
False and append their violation, then the requested fields are
partitioned by is_field_allowed. -/
def validate_access_request (pol : Policies) (role : Str)
    (requested_fields : List Str) (data_source : Str) (patient_count : Nat) :
    ValidationResult :=
  let srcOk := can_access_data_source pol role data_source
  let maxP := get_max_patients_per_query pol role
  { allowed := srcOk && !(decide (patient_count > maxP)),
    blocked_fields := requested_fields.filter fun f => !(is_field_allowed pol role f),
    allowed_fields := requested_fields.filter fun f => is_field_allowed pol role f,
    violations :=
      (if srcOk then [] else [sourceViolation data_source]) ++
      (if patient_count > maxP then [countViolation patient_count maxP] else []),
    policy_applied := role }

example :
    (validate_access_request default_policies "billing_department".data []
      "hospital_records".data 51).allowed = false := by decide

example :
    (validate_access_request default_policies "guest".data []
      "hospital_records".data 1).violations =
    [sourceViolation "hospital_records".data] := by decide

/-- SecurityEvent (response.py lines 5-10).  The timestamp field is a
wall-clock default and is not modelled. -/
structure SecurityEvent where
  event_type : Str
  detected_pattern : Option Str
  action_taken : Str
  deriving Repr, DecidableEq

/-- PebbloProtection (response.py lines 12-18). -/
structure PebbloProtection where
  fields_redacted : List Str
  injection_detected : Bool
  security_events : List SecurityEvent
  policy_applied : Str
  access_level : Str
  deriving Repr, DecidableEq

/-- PebbloMCPService.filter_patient_data (pebblo_service.py lines
22-50), on the nested-dict form produced by patient.dict(): looks up the
role's blocked and allowed fields, applies _apply_field_filtering, and
reports the policy-declared blocked list with access level "filtered"
when that list is non-empty, "full" otherwise. -/
def filter_patient_data (pol : Policies) (user_role : Str) (patient : Fields) :
    Fields × PebbloProtection :=
  let blocked := get_blocked_fields pol user_role
  let allowed := get_allowed_fields pol user_role
  let filtered := apply_field_filtering patient blocked allowed
  (filtered,
   { fields_redacted := blocked,
     injection_detected := false,
     security_events := [],
     policy_applied := user_role,
     access_level := if blocked ≠ [] then "filtered".data else "full".data })

/-- PebbloMCPService.validate_query (pebblo_service.py lines 111-149). -/
def validate_query (pol : Policies) (user_role : Str) (query : Str) :
    Str × PebbloProtection :=
  match detect_injection_patterns query (get_injection_patterns pol) with
  | some r =>
    (sanitize_text query (get_injection_patterns pol),
     { fields_redacted := [],
       injection_detected := true,
       security_events := [{ event_type := "query_injection_detected".data,
                             detected_pattern := some r.pattern,
                             action_taken := "query_sanitized".data }],
       policy_applied := user_role,
       access_level := "query_validated".data })
  | none =>
    (query,
     { fields_redacted := [],
       injection_detected := false,
       security_events := [],
       policy_applied := user_role,
       access_level := "query_validated".data })

/-- JiraTicket (patient.py lines 55-66): all fields are strings. -/
structure JiraTicket where
  ticket_id : Str
  title : Str
  description : Str
  status : Str
  priority : Str
  assigned_to : Str
  created_date : Str
  patient_ref : Str
  amount : Str
  insurance_provider : Str
  deriving Repr, DecidableEq

/-- FilteredJiraTicket (patient.py lines 68-81). -/
structure FilteredJiraTicket where
  ticket_id : Str
  title : Str
  description : Str
  status : Str
  priority : Str
  assigned_to : Str
  created_date : Str
  patient_ref : Str
  amount : Str
  insurance_provider : Str
  pebblo_sanitized : Bool
  security_events : List Str
  deriving Repr, DecidableEq

/-- PebbloMCPService.filter_jira_ticket (pebblo_service.py lines
52-109): detection and sanitization run only over the description. -/
def filter_jira_ticket (pol : Policies) (user_role : Str) (ticket : JiraTicket) :
    FilteredJiraTicket × PebbloProtection :=
  let pats := get_injection_patterns pol
  match detect_injection_patterns ticket.description pats with
  | some r =>
    ({ ticket with
       description := sanitize_text ticket.description pats,
       pebblo_sanitized := true,
       security_events := [r.pattern] },
     { fields_redacted := [],
       injection_detected := true,
       security_events := [{ event_type := "prompt_injection_detected".data,
                             detected_pattern := some r.pattern,
                             action_taken := "content_sanitized".data }],
       policy_applied := user_role,
       access_level := "sanitized".data })
  | none =>
    ({ ticket with
       description := ticket.description,
       pebblo_sanitized := false,
       security_events := [] },
     { fields_redacted := [],
       injection_detected := false,
       security_events := [],
       policy_applied := user_role,
       access_level := "clean".data })

/-- PebbloMCPService.check_access_authorization (pebblo_service.py lines
174-187): delegates to validate_access_request with no requested
fields. -/
def check_access_authorization (pol : Policies) (user_role : Str)
    (data_source : Str) (patient_count : Nat) : ValidationResult :=
  validate_access_request pol user_role [] data_source patient_count

/-- One audit record (security.py lines 80-87).  The two datetime.now
readings (the isoformat timestamp and the numeric timestamp hashed into
the session id) enter as explicit arguments. -/
structure AuditEntry where
  timestamp : Str
  action : Str
  user_role : Str
  data_accessed : List Str
  security_events : List SecurityEvent
  session_id : Str
  deriving Repr, DecidableEq

/-- SecurityUtils.create_audit_log (security.py lines 76-87).  hashFn
stands for the truncated SHA-256 of hash_sensitive_data; every theorem
below holds for an arbitrary hashFn. -/
def create_audit_log (hashFn : Str → Str) (nowIso nowTs : Str) (action : Str)
    (user_role : Str) (data_accessed : List Str)
    (security_events : List SecurityEvent) : AuditEntry :=
  { timestamp := nowIso,
    action := action,
    user_role := user_role,
    data_accessed := data_accessed,
    security_events := security_events,
    session_id := hashFn (action ++ user_role ++ nowTs) }

/-- The mutable service state: the in-memory audit trail
(pebblo_service.py line 18), newest entry last. -/
structure EngineState where
  audit_log : List AuditEntry
  deriving Repr, DecidableEq

/-- PebbloMCPService.create_audit_entry (pebblo_service.py lines
189-204): builds the entry via create_audit_log and appends it to the
trail. -/
def create_audit_entry (hashFn : Str → Str) (nowIso nowTs : Str) (s : EngineState)
    (action : Str) (user_role : Str) (data_accessed : List Str)
    (security_events : List SecurityEvent) : AuditEntry × EngineState :=
  let entry := create_audit_log hashFn nowIso nowTs action user_role data_accessed security_events
  (entry, { audit_log := s.audit_log ++ [entry] })

/-- The dashboard metric values (pebblo_service.py lines 206-217); the
wall-clock last_activity string enters as an argument. -/
structure DashboardMetrics where
  total_queries_processed : Nat
  security_events_detected : Nat
  policies_enforced : Nat
  last_activity : Option Str
  active_policies : List Str
  deriving Repr, DecidableEq

/-- PebbloMCPService.get_dashboard_metrics (pebblo_service.py lines
206-217). -/
def get_dashboard_metrics (pol : Policies) (nowIso : Str) (s : EngineState) :
    DashboardMetrics :=
  { total_queries_processed := s.audit_log.length,
    security_events_detected :=
      (s.audit_log.filter fun e => e.security_events ≠ []).length,
    policies_enforced := s.audit_log.length,
    last_activity := if s.audit_log ≠ [] then some nowIso else none,
    active_policies := pol.role_policies.map Prod.fst }

/-- One invocation of a public PebbloMCPService method, with all its
arguments (wall-clock readings included for the audit call). -/
inductive EngineOp where
  | filterPatient (user_role : Str) (patient : Fields)
  | filterTicket (user_role : Str) (ticket : JiraTicket)
  | validateQuery (user_role : Str) (query : Str)
  | checkAccess (user_role : Str) (data_source : Str) (patient_count : Nat)
  | auditCall (nowIso nowTs : Str) (action : Str) (user_role : Str)
      (data_accessed : List Str) (security_events : List SecurityEvent)
  | dashboard (nowIso : Str)

/-- The effect of one method call on the service state: only
create_audit_entry touches self.audit_log; every other method reads at
most and leaves the state unchanged. -/
def runOp (pol : Policies) (hashFn : Str → Str) (s : EngineState) :
    EngineOp → EngineState
  | EngineOp.filterPatient role p =>
    let _ := filter_patient_data pol role p
    s
  | EngineOp.filterTicket role t =>
    let _ := filter_jira_ticket pol role t
    s
  | EngineOp.validateQuery role q =>
    let _ := validate_query pol role q
    s
  | EngineOp.checkAccess role ds n =>
    let _ := check_access_authorization pol role ds n
    s
  | EngineOp.auditCall nowIso nowTs action role data events =>
    (create_audit_entry hashFn nowIso nowTs s action role data events).2
  | EngineOp.dashboard nowIso =>
    let _ := get_dashboard_metrics pol nowIso s
    s

/-- Whether an op is a recordAudit call. -/
def EngineOp.isAudit : EngineOp → Bool
  | EngineOp.auditCall _ _ _ _ _ _ => true
  | _ => false

/-- Running a whole call sequence from a state. -/
def runOps (pol : Policies) (hashFn : Str → Str) (s : EngineState)
    (ops : List EngineOp) : EngineState :=
  ops.foldl (runOp pol hashFn) s

/-- Coverage of one path by one policy entry as the specification words
it (spec sections 4.1 and 4.3): equal, or dot-prefixed descendant, or
dot-prefixed ancestor.  This is the spec-side comparison definition; the
code's own test is rawCovered below. -/
def dotCovered (p b : Str) : Bool :=
  p == b || (b ++ ['.']).isPrefixOf p || (p ++ ['.']).isPrefixOf b

/-- The comparison the code actually performs per blocked entry
(pebblo_service.py lines 161-162): a raw symmetric string prefix test,
with no dot separation required. -/
def rawCovered (p b : Str) : Bool :=
  b.isPrefixOf p || p.isPrefixOf b

theorem blockedHit_eq_any (blocked : List Str) (cur : Str) :
    blockedHit blocked cur = blocked.any fun b => rawCovered cur b := rfl

/-- A dot-separated field path, given by its non-empty component list;
joinComps rebuilds the literal path string. -/
def joinComps : List Str → Str
  | [] => []
  | [c] => c
  | c :: cs => c ++ '.' :: joinComps cs

mutual
/-- Presence of a dot path (as its component list) in a record: the
empty path is the value itself; a dict follows the first component; a
list is searched elementwise (list indices are not path components). -/
def presentVal : Val → List Str → Bool
  | _, [] => true
  | Val.str _, _ :: _ => false
  | Val.dict fs, c :: cs => presentFields fs c cs
  | Val.arr es, c :: cs => presentElems es (c :: cs)

def presentFields : Fields → Str → List Str → Bool
  | Fields.nil, _, _ => false
  | Fields.cons k v rest, c, cs =>
    if k = c then presentVal v cs else presentFields rest c cs

def presentElems : Elems → List Str → Bool
  | Elems.nil, _ => false
  | Elems.cons v rest, cs => presentVal v cs || presentElems rest cs
end

mutual
/-- The value addressed by a dot path is masked: walking the path meets
the redaction marker at or before its end, so the original value there
(possibly together with an enclosing subtree) has been replaced by the
marker.  For a list, every element must be masked. -/
def redactedAt : Val → List Str → Bool
  | Val.str s, _ => s == redactedMarker
  | Val.dict _, [] => false
  | Val.arr _, [] => false
  | Val.dict fs, c :: cs => redactedFields fs c cs
  | Val.arr es, c :: cs => redactedElems es (c :: cs)

def redactedFields : Fields → Str → List Str → Bool
  | Fields.nil, _, _ => false
  | Fields.cons k v rest, c, cs =>
    if k = c then redactedAt v cs else redactedFields rest c cs

def redactedElems : Elems → List Str → Bool
  | Elems.nil, _ => true
  | Elems.cons v rest, cs => redactedAt v cs && redactedElems rest cs
end

/-- Entry-wise map over a dict, the shape of the filter's observable
action at the top level. -/
def mapEntries (f : Str → Val → Val) : Fields → Fields
  | Fields.nil => Fields.nil
  | Fields.cons k v rest => Fields.cons k (f k v) (mapEntries f rest)

theorem prefixOfTotal {α : Type _} {l₁ l₂ l₃ : List α} (h1 : l₁ <+: l₃)
    (h2 : l₂ <+: l₃) : l₁ <+: l₂ ∨ l₂ <+: l₁ :=
  List.prefix_or_prefix_of_prefix h1 h2

theorem nilPrefixOf {α : Type _} (l : List α) : [] <+: l :=
  List.nil_prefix

theorem blockedHit_iff (blocked : List Str) (cur : Str) :
    blockedHit blocked cur = true ↔ ∃ b ∈ blocked, b <+: cur ∨ cur <+: b := by
  simp [blockedHit, List.any_eq_true, List.isPrefixOf_iff_prefix]

/-- The load-bearing fact about the raw prefix test: a hit anywhere
below a path forces a hit on the path itself, because two prefixes of
the same extended path are comparable. -/
theorem hit_join (blocked : List Str) (path k : Str)
    (h : blockedHit blocked (joinPath path k) = true) :
    blockedHit blocked path = true := by
  rw [blockedHit_iff] at h ⊢
  obtain ⟨b, hb, hrel⟩ := h
  by_cases hp : path = ([] : Str)
  · exact ⟨b, hb, Or.inr (hp ▸ nilPrefixOf b)⟩
  · rw [joinPath, if_neg hp] at hrel
    rcases hrel with hbd | hdb
    · rcases prefixOfTotal hbd (List.prefix_append path ('.' :: k)) with h1 | h2
      · exact ⟨b, hb, Or.inl h1⟩
      · exact ⟨b, hb, Or.inr h2⟩
    · exact ⟨b, hb, Or.inr (List.IsPrefix.trans (List.prefix_append path ('.' :: k)) hdb)⟩

theorem hit_join_contra (blocked : List Str) (path k : Str)
    (h : blockedHit blocked path = false) :
    blockedHit blocked (joinPath path k) = false := by
  cases hc : blockedHit blocked (joinPath path k)
  · rfl
  · exact absurd (hit_join blocked path k hc) (by simp [h])

mutual
/-- Below an unhit path nothing is ever redacted: the whole recursion is
the identity there. -/
theorem noopFields : ∀ (blocked : List Str) (path : Str) (fs : Fields),
    blockedHit blocked path = false → filterFields blocked path fs = fs
  | _, _, Fields.nil, _ => rfl
  | blocked, path, Fields.cons k v rest, h => by
    have hj := hit_join_contra blocked path k h
    simp [filterFields, hj, noopBelow blocked (joinPath path k) v hj,
          noopFields blocked path rest h]

theorem noopBelow : ∀ (blocked : List Str) (cur : Str) (v : Val),
    blockedHit blocked cur = false → filterBelow blocked cur v = v
  | _, _, Val.str _, _ => rfl
  | blocked, cur, Val.dict fs, h => by
    simp [filterBelow, noopFields blocked cur fs h]
  | blocked, cur, Val.arr es, h => by
    cases es with
    | nil => rfl
    | cons v0 rest =>
      cases v0 with
      | str s => rfl
      | arr es0 => rfl
      | dict fs0 =>
        simp [filterBelow,
              noopElems blocked cur (Elems.cons (Val.dict fs0) rest) h]

theorem noopElems : ∀ (blocked : List Str) (cur : Str) (es : Elems),
    blockedHit blocked cur = false → filterElems blocked cur es = es
  | _, _, Elems.nil, _ => rfl
  | blocked, cur, Elems.cons (Val.dict fs) rest, h => by
    simp [filterElems, noopFields blocked cur fs h, noopElems blocked cur rest h]
  | blocked, cur, Elems.cons (Val.str s) rest, h => by
    simp [filterElems, noopElems blocked cur rest h]
  | blocked, cur, Elems.cons (Val.arr es0) rest, h => by
    simp [filterElems, noopElems blocked cur rest h]
end

/-- What the filter observably does: starting from the root path, a
top-level key whose raw prefix test hits is overwritten wholesale with
the marker, and a key with no hit is left with its entire subtree
untouched — a hit at any nested path would have forced a hit at its
top-level key already (hit_join), so the deeper recursion never fires. -/
theorem filterFields_root (blocked : List Str) :
    ∀ fs : Fields, filterFields blocked [] fs =
      mapEntries
        (fun k v => if blockedHit blocked k then Val.str redactedMarker else v)
        fs
  | Fields.nil => rfl
  | Fields.cons k v rest => by
    have hj : joinPath [] k = k := rfl
    cases hc : blockedHit blocked k with
    | true => simp [filterFields, mapEntries, hj, hc, filterFields_root blocked rest]
    | false =>
      simp [filterFields, mapEntries, hj, hc, noopBelow blocked k v hc,
            filterFields_root blocked rest]

theorem joinComps_head (c : Str) (cs : List Str) : c <+: joinComps (c :: cs) := by
  cases cs with
  | nil => exact List.prefix_refl c
  | cons d ds => exact List.prefix_append c ('.' :: joinComps (d :: ds))

/-- A blocked path starting with component c makes the raw test hit the
bare key c at the top level. -/
theorem hit_of_head_mem (blocked : List Str) (c : Str) (cs : List Str)
    (hb : joinComps (c :: cs) ∈ blocked) : blockedHit blocked c = true :=
  (blockedHit_iff blocked c).2 ⟨joinComps (c :: cs), hb, Or.inr (joinComps_head c cs)⟩

/-- If a path with head c is present in the record and its top-level key
is hit, then after the top-level overwrite the whole path is masked. -/
theorem present_to_redacted (blocked : List Str) :
    ∀ (fs : Fields) (c : Str) (cs ds : List Str),
      blockedHit blocked c = true →
      presentFields fs c cs = true →
      redactedFields
        (mapEntries
          (fun k v => if blockedHit blocked k then Val.str redactedMarker else v)
          fs)
        c (cs ++ ds) = true
  | Fields.nil, c, cs, ds, _, hp => by simp [presentFields] at hp
  | Fields.cons k v rest, c, cs, ds, hc, hp => by
    by_cases hk : k = c
    · subst hk
      simp [mapEntries, redactedFields, hc, redactedAt]
    · simp [presentFields, hk] at hp
      simpa [mapEntries, redactedFields, hk] using
        present_to_redacted blocked rest c cs ds hc hp

theorem containsSeg_nil_pat (t : Str) : containsSeg [] t = true := by
  cases t <;> simp [containsSeg, List.isPrefixOf]

theorem lowerStr_cons (c : Char) (t : Str) :
    lowerStr (c :: t) = Char.toLower c :: lowerStr t := rfl

/-- A single case-insensitive substitution leaves text with no
case-insensitive occurrence of the pattern untouched. -/
theorem subAux_clean (pat marker : Str) :
    ∀ (fuel : Nat) (t : Str),
      containsSeg (lowerStr pat) (lowerStr t) = false →
      subAux pat marker fuel t = t
  | _, [], _ => by cases ‹Nat› <;> rfl
  | 0, _ :: _, _ => rfl
  | fuel + 1, c :: t, h => by
    have hsplit : (lowerStr pat).isPrefixOf (lowerStr (c :: t)) = false ∧
        containsSeg (lowerStr pat) (lowerStr t) = false := by
      rw [lowerStr_cons] at h
      simp [containsSeg] at h
      exact ⟨by simpa [lowerStr_cons] using h.1, h.2⟩
    have hm : matchCI pat (c :: t) = false := hsplit.1
    simp [subAux, hm, subAux_clean pat marker fuel t hsplit.2]

theorem subCI_clean (pat marker t : Str)
    (h : containsSeg (lowerStr pat) (lowerStr t) = false) :
    subCI pat marker t = t := by
  have hpat : pat ≠ [] := by
    intro hp
    rw [hp] at h
    simp [lowerStr, containsSeg_nil_pat] at h
  simp [subCI, hpat, subNE, subAux_clean pat marker t.length t h]

/-- sanitize_text is the identity on text containing no pattern. -/
theorem sanitize_clean (t : Str) :
    ∀ patterns : List Str,
      (∀ p ∈ patterns, containsSeg (lowerStr p) (lowerStr t) = false) →
      sanitize_text t patterns = t := by
  intro patterns h
  by_cases ht : t = ([] : Str)
  · simp [sanitize_text, ht]
  · rw [sanitize_text, if_neg ht]
    induction patterns with
    | nil => rfl
    | cons p ps ih =>
      rw [List.foldl_cons, subCI_clean p contentFilteredMarker t (h p (by simp)),
          ih (fun q hq => h q (by simp [hq]))]

theorem detectLoop_clean (text tl : Str) :
    ∀ patterns : List Str,
      (∀ p ∈ patterns, containsSeg (lowerStr p) tl = false) →
      detectLoop text tl patterns = none
  | [], _ => rfl
  | p :: ps, h => by
    simp [detectLoop, h p (by simp),
          detectLoop_clean text tl ps (fun q hq => h q (by simp [hq]))]

/-- runOps only ever appends audit entries: the trail grows by exactly
the number of audit calls and the old trail stays as an untouched
prefix. -/
theorem runOps_audit (pol : Policies) (hashFn : Str → Str) :
    ∀ (ops : List EngineOp) (s : EngineState),
      (runOps pol hashFn s ops).audit_log.length
          = s.audit_log.length + (ops.filter EngineOp.isAudit).length ∧
      s.audit_log <+: (runOps pol hashFn s ops).audit_log := by
  intro ops
  induction ops with
  | nil => exact fun s => ⟨rfl, List.prefix_refl _⟩
  | cons op rest ih =>
    intro s
    have hstep : runOps pol hashFn s (op :: rest) =
        runOps pol hashFn (runOp pol hashFn s op) rest := rfl
    cases op with
    | auditCall nowIso nowTs action role data events =>
      obtain ⟨hlen, hpre⟩ := ih (runOp pol hashFn s (EngineOp.auditCall nowIso nowTs action role data events))
      refine ⟨?_, ?_⟩
      · rw [hstep, hlen]
        simp [runOp, create_audit_entry, EngineOp.isAudit, List.filter]
        omega
      · rw [hstep]
        exact List.IsPrefix.trans (List.prefix_append s.audit_log _) hpre
    | filterPatient role p =>
      obtain ⟨hlen, hpre⟩ := ih s
      exact ⟨by rw [hstep]; simpa [EngineOp.isAudit, List.filter] using hlen,
             by rw [hstep]; exact hpre⟩
    | filterTicket role t =>
      obtain ⟨hlen, hpre⟩ := ih s
      exact ⟨by rw [hstep]; simpa [EngineOp.isAudit, List.filter] using hlen,
             by rw [hstep]; exact hpre⟩
    | validateQuery role q =>
      obtain ⟨hlen, hpre⟩ := ih s
      exact ⟨by rw [hstep]; simpa [EngineOp.isAudit, List.filter] using hlen,
             by rw [hstep]; exact hpre⟩
    | checkAccess role ds n =>
      obtain ⟨hlen, hpre⟩ := ih s
      exact ⟨by rw [hstep]; simpa [EngineOp.isAudit, List.filter] using hlen,
             by rw [hstep]; exact hpre⟩
    | dashboard nowIso =>
      obtain ⟨hlen, hpre⟩ := ih s
      exact ⟨by rw [hstep]; simpa [EngineOp.isAudit, List.filter] using hlen,
             by rw [hstep]; exact hpre⟩

/-- The state of the SOURCE dict after _apply_field_filtering returns,
derived from the aliasing in the code: line 153 takes a SHALLOW copy, so
the copy and the source share every nested value object.  For a
top-level key whose path is hit, the assignment obj[key] = "[REDACTED]"
executes on the copy's own top-level slot and the recursion never enters
the value, so the source still holds the value untouched.  For an un-hit
top-level key, filter_recursive recurses into the very object the
source references, so the source sees exactly the in-place effect of
that recursion, which is the functional filterBelow. -/
def source_after_filter (blocked : List Str) (fs : Fields) : Fields :=
  mapEntries
    (fun k v => if blockedHit blocked k then v else filterBelow blocked k v) fs

theorem sourceAfter_eq (blocked : List Str) :
    ∀ fs : Fields, source_after_filter blocked fs = fs
  | Fields.nil => rfl
  | Fields.cons k v rest => by
    have ih : mapEntries
        (fun k v => if blockedHit blocked k then v else filterBelow blocked k v)
        rest = rest := sourceAfter_eq blocked rest
    cases hc : blockedHit blocked k with
    | true => simp [source_after_filter, mapEntries, hc, ih]
    | false =>
      simp [source_after_filter, mapEntries, hc, noopBelow blocked k v hc, ih]

/-- C1: for every role, every field path F in the role's blocked list
(given by its component list, rebuilt by joinComps) and every input
record in which F is present, filter_patient_data masks the value at F
and at every descendant path of F with the redaction marker, and the
report has injection_detected = false and access_level = "filtered"
(the blocked list is non-empty since F belongs to it). -/
theorem c1_blocked_field_redacted (pol : Policies) (role : Str) (patient : Fields)
    (c : Str) (cs ds : List Str)
    (hb : joinComps (c :: cs) ∈ get_blocked_fields pol role)
    (hp : presentVal (Val.dict patient) (c :: cs) = true) :
    redactedAt (Val.dict (filter_patient_data pol role patient).1) (c :: cs ++ ds) = true ∧
    (filter_patient_data pol role patient).2.injection_detected = false ∧
    (filter_patient_data pol role patient).2.access_level = "filtered".data := by
  have hc : blockedHit (get_blocked_fields pol role) c = true :=
    hit_of_head_mem (get_blocked_fields pol role) c cs hb
  have h1 : (filter_patient_data pol role patient).1 =
      filterFields (get_blocked_fields pol role) [] patient := rfl
  refine ⟨?_, rfl, ?_⟩
  · rw [h1, filterFields_root]
    have hp' : presentFields patient c cs = true := hp
    simpa [redactedAt] using
      present_to_redacted (get_blocked_fields pol role) patient c cs ds hc hp'
  · simp [filter_patient_data, List.ne_nil_of_mem hb]

/-- A concrete patient record for the scenario witnesses. -/
def patientA : Fields :=
  Fields.cons "ssn".data (Val.str "123-45-6789".data)
    (Fields.cons "name".data (Val.str "Maria Lopez".data) Fields.nil)

/-- Witness for C1, Scenario A: the clinical role (nursing_group) blocks
ssn, and a record carrying ssn comes back masked with a filtered
report. -/
theorem c1_witness :
    joinComps ["ssn".data] ∈ get_blocked_fields default_policies "nursing_group".data ∧
    presentVal (Val.dict patientA) ["ssn".data] = true ∧
    (redactedAt (Val.dict (filter_patient_data default_policies "nursing_group".data patientA).1)
        ["ssn".data] = true ∧
     (filter_patient_data default_policies "nursing_group".data patientA).2.injection_detected
        = false ∧
     (filter_patient_data default_policies "nursing_group".data patientA).2.access_level
        = "filtered".data) :=
  ⟨by decide, by decide,
   c1_blocked_field_redacted default_policies "nursing_group".data patientA
     "ssn".data [] [] (by decide) (by decide)⟩

/-- C2 is false on the code: with blocked path "ssn", the key
"ssn_history" is not dot-covered by "ssn" in either direction, yet
_apply_field_filtering replaces its value with the marker, because the
code compares raw string prefixes without requiring a dot boundary. -/
theorem c2_counterexample :
    dotCovered "ssn_history".data "ssn".data = false ∧
    apply_field_filtering
        (Fields.cons "ssn_history".data (Val.str "old".data) Fields.nil)
        ["ssn".data] [] =
      Fields.cons "ssn_history".data (Val.str redactedMarker) Fields.nil :=
  ⟨by decide, rfl⟩

/-- C2 (amended): a top-level key K is replaced by the marker exactly
when K stands in the RAW symmetric string-prefix relation (rawCovered,
no dot boundary) with some blocked path; every key with no raw hit
keeps its entire subtree untouched, since a raw hit at any nested path
forces a raw hit at its top-level key, which is then masked wholesale. -/
theorem c2_raw_prefix_rule (blocked allowed : List Str) (fs : Fields) :
    apply_field_filtering fs blocked allowed =
      mapEntries
        (fun k v => if blocked.any (rawCovered k) then Val.str redactedMarker else v)
        fs :=
  filterFields_root blocked fs

/-- C3: redaction never mutates the source record: for every blocked
list (nested dot paths included) and every record, the source as left
behind by _apply_field_filtering (source_after_filter, derived from the
shallow-copy aliasing) is the record itself; only the returned copy
differs. -/
theorem c3_source_unmutated (blocked : List Str) (fs : Fields) :
    source_after_filter blocked fs = fs :=
  sourceAfter_eq blocked fs

/-- C4 is false as stated: sanitizing is not idempotent for every
signature list, because a signature can match inside the marker that
sanitization itself writes.  With signature "content" and text
"content", the first pass yields "[CONTENT_FILTERED]" and the second
pass matches CONTENT inside the marker and rewrites it again. -/
theorem c4_counterexample :
    sanitize_text (sanitize_text "content".data ["content".data]) ["content".data] ≠
      sanitize_text "content".data ["content".data] := by decide

/-- C4 (amended): re-sanitizing is a no-op provided no signature occurs
case-insensitively in the once-sanitized text (which the counterexample
shows can fail when a signature overlaps the marker). -/
theorem c4_amended_idempotent (T : Str) (S : List Str)
    (h : ∀ p ∈ S, containsSeg (lowerStr p) (lowerStr (sanitize_text T S)) = false) :
    sanitize_text (sanitize_text T S) S = sanitize_text T S :=
  sanitize_clean (sanitize_text T S) S h

theorem c4_witness :
    (∀ p ∈ ["ignore all".data],
      containsSeg (lowerStr p)
        (lowerStr (sanitize_text "hello".data ["ignore all".data])) = false) ∧
    sanitize_text (sanitize_text "hello".data ["ignore all".data]) ["ignore all".data] =
      sanitize_text "hello".data ["ignore all".data] :=
  ⟨by decide, c4_amended_idempotent "hello".data ["ignore all".data] (by decide)⟩

/-- C5: when no signature occurs case-insensitively in the text, the
detector reports no match and the sanitizer returns the text
unchanged. -/
theorem c5_clean_input (T : Str) (S : List Str)
    (h : ∀ p ∈ S, containsSeg (lowerStr p) (lowerStr T) = false) :
    detect_injection_patterns T S = none ∧ sanitize_text T S = T := by
  constructor
  · rw [detect_injection_patterns]
    by_cases he : T = ([] : Str) ∨ S = ([] : List Str)
    · rw [if_pos he]
    · rw [if_neg he]
      exact detectLoop_clean T (lowerStr T) S h
  · exact sanitize_clean T S h

theorem c5_witness :
    (∀ p ∈ default_policies.injection_patterns,
      containsSeg (lowerStr p) (lowerStr "hello there".data) = false) ∧
    detect_injection_patterns "hello there".data default_policies.injection_patterns = none ∧
    sanitize_text "hello there".data default_policies.injection_patterns = "hello there".data :=
  ⟨by decide,
   (c5_clean_input "hello there".data default_policies.injection_patterns (by decide)).1,
   (c5_clean_input "hello there".data default_policies.injection_patterns (by decide)).2⟩

/-- C6: the detector returns none on an empty text or an empty
signature list, and otherwise returns exactly the first signature (in
the caller-supplied order) whose lowercase form occurs in the lowered
text — a single Option result, so at most one match per call. -/
theorem c6_first_match (T : Str) (S : List Str) :
    detect_injection_patterns T [] = none ∧
    detect_injection_patterns [] S = none ∧
    (∀ (p : Str) (pre post : List Str),
      S = pre ++ p :: post → T ≠ [] →
      containsSeg (lowerStr p) (lowerStr T) = true →
      (∀ q ∈ pre, containsSeg (lowerStr q) (lowerStr T) = false) →
      detect_injection_patterns T S =
        some { detected := true, pattern := p,
               location := findSeg (lowerStr p) (lowerStr T),
               original_text := T }) := by
  refine ⟨by simp [detect_injection_patterns], by simp [detect_injection_patterns], ?_⟩
  intro p pre post hS hT hmatch hpre
  subst hS
  rw [detect_injection_patterns, if_neg (by simp [hT])]
  induction pre with
  | nil => simp [detectLoop, hmatch]
  | cons q qs ih =>
    have hq : containsSeg (lowerStr q) (lowerStr T) = false := hpre q (by simp)
    simpa [detectLoop, hq] using ih (fun r hr => hpre r (by simp [hr]))

theorem c6_witness :
    ("please IGNORE ALL prior".data : Str) ≠ [] ∧
    containsSeg (lowerStr "ignore all".data) (lowerStr "please IGNORE ALL prior".data) = true ∧
    (∀ q ∈ ["bypass security".data],
      containsSeg (lowerStr q) (lowerStr "please IGNORE ALL prior".data) = false) ∧
    detect_injection_patterns "please IGNORE ALL prior".data
        ["bypass security".data, "ignore all".data, "output all".data] =
      some { detected := true, pattern := "ignore all".data,
             location := findSeg (lowerStr "ignore all".data)
               (lowerStr "please IGNORE ALL prior".data),
             original_text := "please IGNORE ALL prior".data } :=
  ⟨by decide, by decide, by decide,
   (c6_first_match "please IGNORE ALL prior".data
       ["bypass security".data, "ignore all".data, "output all".data]).2.2
     "ignore all".data ["bypass security".data] ["output all".data]
     rfl (by decide) (by decide) (by decide)⟩

/-- C7: create_audit_entry is total (it is a Lean function) and running
any sequence of engine operations grows the audit trail by exactly the
number of audit calls, with the old trail surviving as an untouched
prefix: entries are never reordered, mutated or removed by any
operation. -/
theorem c7_audit_monotone (pol : Policies) (hashFn : Str → Str)
    (s : EngineState) (ops : List EngineOp) :
    (runOps pol hashFn s ops).audit_log.length
        = s.audit_log.length + (ops.filter EngineOp.isAudit).length ∧
    s.audit_log <+: (runOps pol hashFn s ops).audit_log :=
  runOps_audit pol hashFn ops s

/-- C8: validate_access_request denies with a source violation when the
data source is not permitted for the role, denies with a quota
violation when the count exceeds the role's maximum, and — regardless
of the outcome — partitions the requested fields by is_field_allowed. -/
theorem c8_validate (pol : Policies) (role : Str) (requested : List Str)
    (ds : Str) (count : Nat) :
    ((can_access_data_source pol role ds = false →
        (validate_access_request pol role requested ds count).allowed = false ∧
        sourceViolation ds ∈
          (validate_access_request pol role requested ds count).violations) ∧
     (count > get_max_patients_per_query pol role →
        (validate_access_request pol role requested ds count).allowed = false ∧
        countViolation count (get_max_patients_per_query pol role) ∈
          (validate_access_request pol role requested ds count).violations)) ∧
    (validate_access_request pol role requested ds count).allowed_fields =
      requested.filter (fun f => is_field_allowed pol role f) ∧
    (validate_access_request pol role requested ds count).blocked_fields =
      requested.filter (fun f => !(is_field_allowed pol role f)) := by
  refine ⟨⟨fun h => ⟨?_, ?_⟩, fun h => ⟨?_, ?_⟩⟩, rfl, rfl⟩
  · simp [validate_access_request, h]
  · simp [validate_access_request, h]
  · simp [validate_access_request, h]
  · simp [validate_access_request, h]

/-- Witness for C8 at a role with no policy: both denial reasons fire
at once and the single requested field lands in blocked_fields. -/
theorem c8_witness :
    can_access_data_source default_policies "guest".data "bogus".data = false ∧
    51 > get_max_patients_per_query default_policies "guest".data ∧
    (validate_access_request default_policies "guest".data ["ssn".data]
        "bogus".data 51).allowed = false ∧
    sourceViolation "bogus".data ∈
      (validate_access_request default_policies "guest".data ["ssn".data]
        "bogus".data 51).violations ∧
    countViolation 51 (get_max_patients_per_query default_policies "guest".data) ∈
      (validate_access_request default_policies "guest".data ["ssn".data]
        "bogus".data 51).violations :=
  ⟨by decide, by decide,
   ((c8_validate default_policies "guest".data ["ssn".data] "bogus".data 51).1.1
      (by decide)).1,
   ((c8_validate default_policies "guest".data ["ssn".data] "bogus".data 51).1.1
      (by decide)).2,
   ((c8_validate default_policies "guest".data ["ssn".data] "bogus".data 51).1.2
      (by decide)).2⟩

example :
    (validate_access_request default_policies "billing_department".data []
        "hospital_records".data 51).allowed = false ∧
    countViolation 51 50 ∈
      (validate_access_request default_policies "billing_department".data []
        "hospital_records".data 51).violations := by decide

/-- C9: a role with no policy entry fails closed without raising: empty
allowed fields, empty blocked fields, empty data sources, quota 1, and
every validation naming a non-empty data source is denied with a source
violation. -/
theorem c9_unknown_role (pol : Policies) (role : Str)
    (hnone : get_role_policy pol role = none) :
    get_allowed_fields pol role = [] ∧
    get_blocked_fields pol role = [] ∧
    get_allowed_data_sources pol role = [] ∧
    get_max_patients_per_query pol role = 1 ∧
    (∀ (requested : List Str) (ds : Str) (count : Nat), ds ≠ [] →
      (validate_access_request pol role requested ds count).allowed = false ∧
      sourceViolation ds ∈
        (validate_access_request pol role requested ds count).violations) := by
  have h1 : get_allowed_data_sources pol role = [] := by
    simp [get_allowed_data_sources, hnone]
  refine ⟨by simp [get_allowed_fields, hnone], by simp [get_blocked_fields, hnone],
          h1, by simp [get_max_patients_per_query, hnone], ?_⟩
  intro requested ds count _
  have hsrc : can_access_data_source pol role ds = false := by
    simp [can_access_data_source, h1]
  exact ⟨by simp [validate_access_request, hsrc],
         by simp [validate_access_request, hsrc]⟩

/-- Witness for C9, Scenario D: the unknown role "guest". -/
theorem c9_witness :
    get_role_policy default_policies "guest".data = none ∧
    ("hospital_records".data : Str) ≠ [] ∧
    get_max_patients_per_query default_policies "guest".data = 1 ∧
    (validate_access_request default_policies "guest".data []
        "hospital_records".data 1).allowed = false ∧
    sourceViolation "hospital_records".data ∈
      (validate_access_request default_policies "guest".data []
        "hospital_records".data 1).violations :=
  ⟨by decide, by decide,
   (c9_unknown_role default_policies "guest".data (by decide)).2.2.2.1,
   ((c9_unknown_role default_policies "guest".data (by decide)).2.2.2.2
      [] "hospital_records".data 1 (by decide)).1,
   ((c9_unknown_role default_policies "guest".data (by decide)).2.2.2.2
      [] "hospital_records".data 1 (by decide)).2⟩

/-- C10: a role with no policy entry gets the record back with nothing
redacted and a report with fields_redacted = [] and access_level =
"full": the empty blocked list grants full visibility to unrecognized
roles. -/
theorem c10_unknown_role_full_access (pol : Policies) (role : Str) (patient : Fields)
    (hnone : get_role_policy pol role = none) :
    (filter_patient_data pol role patient).1 = patient ∧
    (filter_patient_data pol role patient).2.fields_redacted = [] ∧
    (filter_patient_data pol role patient).2.access_level = "full".data := by
  have hb : get_blocked_fields pol role = [] := by simp [get_blocked_fields, hnone]
  refine ⟨?_, by simp [filter_patient_data, hb], by simp [filter_patient_data, hb]⟩
  have h1 : (filter_patient_data pol role patient).1 =
      filterFields (get_blocked_fields pol role) [] patient := rfl
  rw [h1, hb]
  exact noopFields [] [] patient (by simp [blockedHit])

theorem c10_witness :
    get_role_policy default_policies "guest".data = none ∧
    ((filter_patient_data default_policies "guest".data patientA).1 = patientA ∧
     (filter_patient_data default_policies "guest".data patientA).2.fields_redacted = [] ∧
     (filter_patient_data default_policies "guest".data patientA).2.access_level
        = "full".data) :=
  ⟨by decide,
   c10_unknown_role_full_access default_policies "guest".data patientA (by decide)⟩
